import Mathlib

/-!
Shallow embedding of the N-body demo (`src/main.c`) and verification of its
specification claims.

The program keeps a fixed set of circular bodies in parallel arrays
(`x`, `y`, `vx`, `vy`, `diam`), advances them under pairwise Newtonian
gravity with an inelastic normal-absorbing collision model (`physics`,
`doCollision`), and gates the advance behind a play/pause/step counter
`stepFrames` driven by discrete user commands (`seeIfUserWantsSomething`,
`step`, `userInput`).

C `float` arithmetic is modelled by exact real arithmetic (`ℝ`, with
`Real.sqrt` for `sqrtf`); the `int` counter `stepFrames` is modelled by `ℤ`.
-/

namespace NBody

/-! ### User input (enum UserInput, userInput) -/

/-- `enum UserInput` from the source: the discrete command produced by one
input poll.  `lovinit` is the "no command" default value `USER_LOVINIT`. -/
inductive UserInput where
  | lovinit
  | quit
  | togglePause
  | step
deriving DecidableEq, Repr

/-- The keyboard keys the `SDL_KEYUP` handler distinguishes: space, `s`, `q`,
and anything else. -/
inductive SDLKey where
  | space
  | keyS
  | keyQ
  | otherKey
deriving DecidableEq, Repr

/-- The raw event shapes the `userInput` event loop distinguishes:
a mouse-button press, a key release, and any other event type. -/
inductive SDLEvent where
  | mouseButtonDown
  | keyUp (k : SDLKey)
  | otherEvent
deriving DecidableEq, Repr

/-- The body of the `userInput` event loop (the `switch` on `evt.type`):
one drained event updates the running `ret` value.  A mouse press maps to
`USER_QUIT`; a key release of space, `s`, `q` maps to `USER_TOGGLE_PAUSE`,
`USER_STEP`, `USER_QUIT`; every other event leaves `ret` unchanged. -/
def pollStep (ret : UserInput) (e : SDLEvent) : UserInput :=
  match e with
  | .mouseButtonDown => .quit
  | .keyUp .space => .togglePause
  | .keyUp .keyS => .step
  | .keyUp .keyQ => .quit
  | .keyUp .otherKey => ret
  | .otherEvent => ret

/-- `userInput` from the source: drain the pending event queue (modelled as
the list of events returned by successive `SDL_PollEvent` calls) and compute
the resulting command.  `ret` starts at `USER_LOVINIT` and is overwritten by
each recognized event; unrecognized events leave it unchanged. -/
def userInput (evts : List SDLEvent) : UserInput :=
  evts.foldl pollStep .lovinit

/-- The command a single raw event maps to, `none` when the event is not
recognized by any `case` of `userInput`.  (Companion definition used to state
how `userInput` combines several events.) -/
def eventCommand (e : SDLEvent) : Option UserInput :=
  match e with
  | .mouseButtonDown => some .quit
  | .keyUp .space => some .togglePause
  | .keyUp .keyS => some .step
  | .keyUp .keyQ => some .quit
  | .keyUp .otherKey => none
  | .otherEvent => none

/-! ### Run/pause state machine (context_t.stepFrames, seeIfUserWantsSomething, step)

The simulation state carries the world (abstract here: the physics advance
function is a parameter `f`), the `stepFrames` counter
(`-1`: keep running; `0`: paused; `N>0`: step `N` frames) and the
`continueMainLoop` flag. -/

structure SimState (α : Type) where
  world : α
  stepFrames : ℤ
  looping : Bool
deriving Repr

/-- `initContext` from the source, restricted to the fields the run-mode
claims are about: `stepFrames` is initialized to `-1` (running) and the main
loop flag is up. -/
def initContext {α : Type} (w : α) : SimState α :=
  { world := w, stepFrames := -1, looping := true }

/-- `seeIfUserWantsSomething` from the source: dispatch one polled command.
`USER_QUIT` cancels the main loop; `USER_TOGGLE_PAUSE` maps `stepFrames = 0`
to `-1` and anything else to `0`; `USER_STEP` increments `stepFrames`;
`USER_LOVINIT` does nothing. -/
def seeIfUserWantsSomething {α : Type} (s : SimState α) (u : UserInput) :
    SimState α :=
  match u with
  | .quit => { s with looping := false }
  | .togglePause =>
      if s.stepFrames = 0 then { s with stepFrames := -1 }
      else { s with stepFrames := 0 }
  | .step => { s with stepFrames := s.stepFrames + 1 }
  | .lovinit => s

/-- `step` from the source (one tick of the frame driver), parametric in the
physics advance `f` (and ignoring the draw call and the pause delay, which do
not touch the state): when `stepFrames ≠ 0`, advance the world and, when
`stepFrames > 0`, decrement it; then poll and dispatch the user command `u`
for this tick. -/
def stepSim {α : Type} (f : α → α) (s : SimState α) (u : UserInput) :
    SimState α :=
  let s1 :=
    if s.stepFrames ≠ 0 then
      let sAdv := { s with world := f s.world }
      if sAdv.stepFrames > 0 then { sAdv with stepFrames := sAdv.stepFrames - 1 }
      else sAdv
    else s
  seeIfUserWantsSomething s1 u

/-! ### Physics (G, dot, scalarProject, doCollision, physics) -/

/-- `const float G = 1.0f` from the source. -/
def G : ℝ := 1

/-- `dot` from the source. -/
def dot (x1 y1 x2 y2 : ℝ) : ℝ :=
  x1 * x2 + y1 * y2

/-- `scalarProject` from the source: the length of the projection of
`(x1, y1)` onto `(x2, y2)`, whose length `r2` is passed in. -/
noncomputable def scalarProject (x1 y1 x2 y2 r2 : ℝ) : ℝ :=
  dot x1 y1 x2 y2 / r2

/-- `doCollision` from the source: given the separation vector `(dx, dy)`
from body `i` to body `j`, its length `r`, and the two velocities, return the
velocities after collision resolution `(vxi, vyi, vxj, vyj)`.  When the
normal closing speed `vn = vni - vnj` is `≤ 0` the velocities are returned
unchanged; otherwise each body keeps only its tangential component. -/
noncomputable def doCollision (dx dy r vxi vyi vxj vyj : ℝ) : ℝ × ℝ × ℝ × ℝ :=
  let vni := scalarProject vxi vyi dx dy r
  let vnj := scalarProject vxj vyj dx dy r
  let vn := vni - vnj
  if vn ≤ 0 then
    (vxi, vyi, vxj, vyj)
  else
    let vti := scalarProject vxi vyi (-dy) dx r
    let vtj := scalarProject vxj vyj (-dy) dx r
    (vti / r * -dy, vti / r * dx, vtj / r * -dy, vtj / r * dx)

/-- The body store of `context_t`: flat parallel arrays of per-body state
(`n` live entries; indices are unbounded functions, entries at `n` and above
are never touched by the physics). -/
structure World where
  n : ℕ
  x : ℕ → ℝ
  y : ℕ → ℝ
  vx : ℕ → ℝ
  vy : ℕ → ℝ
  diam : ℕ → ℝ

/-- `mi = di * di` from the source: mass in a 2-D world. -/
def bodyMass (w : World) (i : ℕ) : ℝ :=
  w.diam i * w.diam i

/-- `dx = xj - xi` from the source. -/
def sepX (w : World) (i j : ℕ) : ℝ :=
  w.x j - w.x i

/-- `dy = yj - yi` from the source. -/
def sepY (w : World) (i j : ℕ) : ℝ :=
  w.y j - w.y i

/-- `r2 = dx * dx + dy * dy` from the source. -/
def dist2 (w : World) (i j : ℕ) : ℝ :=
  sepX w i j * sepX w i j + sepY w i j * sepY w i j

/-- `r = sqrtf (r2)` from the source. -/
noncomputable def dist (w : World) (i j : ℕ) : ℝ :=
  Real.sqrt (dist2 w i j)

/-- `force = G * mi * mj / r2` from the source. -/
noncomputable def gravForce (w : World) (i j : ℕ) : ℝ :=
  G * bodyMass w i * bodyMass w j / dist2 w i j

/-- `minSep = (di + dj) / 2.0f` from the source. -/
noncomputable def minSep (w : World) (i j : ℕ) : ℝ :=
  (w.diam i + w.diam j) / 2

/-- The closing normal speed `vn = vni - vnj` computed inside `doCollision`
for the pair `(i, j)` of `w`: body `i`'s speed toward body `j` along the line
of centers. -/
noncomputable def normalSpeed (w : World) (i j : ℕ) : ℝ :=
  scalarProject (w.vx i) (w.vy i) (sepX w i j) (sepY w i j) (dist w i j) -
    scalarProject (w.vx j) (w.vy j) (sepX w i j) (sepY w i j) (dist w i j)

/-- The body of the inner pairwise loop of `physics` for the pair `(i, j)`:
when `r ≤ minSep` the pair's velocities are replaced by the `doCollision`
results (the returned heat is only printed); otherwise the gravitational
impulse `±(xforce, yforce)/m` is applied.  Only `vx` and `vy` change. -/
noncomputable def pairUpdate (w : World) (i j : ℕ) : World :=
  let mi := bodyMass w i
  let mj := bodyMass w j
  let dx := sepX w i j
  let dy := sepY w i j
  let r := dist w i j
  let force := gravForce w i j
  let xforce := force / r * dx
  let yforce := force / r * dy
  if r ≤ minSep w i j then
    let c := doCollision dx dy r (w.vx i) (w.vy i) (w.vx j) (w.vy j)
    { w with
      vx := Function.update (Function.update w.vx i c.1) j c.2.2.1
      vy := Function.update (Function.update w.vy i c.2.1) j c.2.2.2 }
  else
    { w with
      vx := Function.update (Function.update w.vx i (w.vx i + xforce / mi)) j
        (w.vx j - xforce / mj)
      vy := Function.update (Function.update w.vy i (w.vy i + yforce / mi)) j
        (w.vy j - yforce / mj) }

/-- The pair ordering of `physics`: `i` from `0` to `n-1`, `j` from `i+1` to
`n-1`, so each unordered pair with `i < j < n` is visited exactly once. -/
def pairList (n : ℕ) : List (ℕ × ℕ) :=
  (List.range n).flatMap fun i => ((List.range n).drop (i + 1)).map fun j => (i, j)

/-- Pass 1 of `physics`: fold the pairwise velocity update over all pairs in
loop order. -/
noncomputable def pairPass (w : World) : World :=
  (pairList w.n).foldl (fun a p => pairUpdate a p.1 p.2) w

/-- Pass 2 of `physics`: `x[i] += vx[i]; y[i] += vy[i]` for every body. -/
def integrate (w : World) : World :=
  { w with
    x := fun i => if i < w.n then w.x i + w.vx i else w.x i
    y := fun i => if i < w.n then w.y i + w.vy i else w.y i }

/-- `physics` from the source (the `advance` of the spec): pass 1 fully
updates all velocities pairwise, then pass 2 integrates every position with
the fully updated velocity. -/
noncomputable def advance (w : World) : World :=
  integrate (pairPass w)

/-! ### Concrete worlds used to instantiate the theorems -/

/-- The two-body scenario world of the spec: body 0 at `(0,0)`, body 1 at
`(100,0)`, both at rest with diameter `10`. -/
def wGrav : World :=
  { n := 2
    x := fun i => if i = 0 then 0 else 100
    y := fun _ => 0
    vx := fun _ => 0
    vy := fun _ => 0
    diam := fun _ => 10 }

/-- An overlapping two-body world: body 0 at `(0,0)`, body 1 at `(3,4)`
(distance `5`), both at rest with diameter `10`, so `r = 5 ≤ minSep = 10`
and the closing normal speed is `0`. -/
def wColl : World :=
  { n := 2
    x := fun i => if i = 0 then 0 else 3
    y := fun i => if i = 0 then 0 else 4
    vx := fun _ => 0
    vy := fun _ => 0
    diam := fun _ => 10 }

/-- A concrete paused simulation state over a `ℕ` world, used to
instantiate the run-mode theorems. -/
def simState0 : SimState ℕ :=
  { world := 0, stepFrames := 0, looping := true }

/-- A concrete running simulation state over a `ℕ` world
(`stepFrames = -1`). -/
def simStateRun : SimState ℕ :=
  { world := 0, stepFrames := -1, looping := true }

/-! ### Helper lemmas -/

/-- `doCollision` with non-positive closing normal speed returns the
velocities unchanged. -/
theorem doCollision_of_separating (dx dy r vxi vyi vxj vyj : ℝ)
    (h : scalarProject vxi vyi dx dy r - scalarProject vxj vyj dx dy r ≤ 0) :
    doCollision dx dy r vxi vyi vxj vyj = (vxi, vyi, vxj, vyj) := by
  simp only [doCollision]
  rw [if_pos h]

/-- `pairUpdate` never touches the body count, positions, or diameters. -/
theorem pairUpdate_frame (w : World) (i j : ℕ) :
    (pairUpdate w i j).n = w.n ∧ (pairUpdate w i j).x = w.x ∧
      (pairUpdate w i j).y = w.y ∧ (pairUpdate w i j).diam = w.diam := by
  simp only [pairUpdate]
  split <;> exact ⟨rfl, rfl, rfl, rfl⟩

/-- In the non-colliding branch (`¬ r ≤ minSep`), `pairUpdate` applies
exactly the gravitational impulse to both bodies. -/
theorem pairUpdate_of_far (w : World) (i j : ℕ) (hij : i ≠ j)
    (h : ¬ dist w i j ≤ minSep w i j) :
    (pairUpdate w i j).vx i
        = w.vx i + gravForce w i j / dist w i j * sepX w i j / bodyMass w i ∧
      (pairUpdate w i j).vy i
        = w.vy i + gravForce w i j / dist w i j * sepY w i j / bodyMass w i ∧
      (pairUpdate w i j).vx j
        = w.vx j - gravForce w i j / dist w i j * sepX w i j / bodyMass w j ∧
      (pairUpdate w i j).vy j
        = w.vy j - gravForce w i j / dist w i j * sepY w i j / bodyMass w j := by
  simp only [pairUpdate]
  rw [if_neg h]
  refine ⟨?_, ?_, ?_, ?_⟩ <;>
    simp [Function.update_noteq hij, Function.update_noteq (Ne.symm hij),
      Function.update_same]

/-- In the colliding branch (`r ≤ minSep`), the pair's new velocities are
exactly the four components returned by `doCollision`; no other term is
added. -/
theorem pairUpdate_of_near (w : World) (i j : ℕ) (hij : i ≠ j)
    (h : dist w i j ≤ minSep w i j) :
    ((pairUpdate w i j).vx i, (pairUpdate w i j).vy i,
      (pairUpdate w i j).vx j, (pairUpdate w i j).vy j)
      = doCollision (sepX w i j) (sepY w i j) (dist w i j)
          (w.vx i) (w.vy i) (w.vx j) (w.vy j) := by
  simp only [pairUpdate]
  rw [if_pos h]
  simp [Function.update_noteq hij, Function.update_noteq (Ne.symm hij),
    Function.update_same]

/-- Folding `pairUpdate` over any list of pairs never touches the body
count, positions, or diameters. -/
theorem foldPairs_frame (l : List (ℕ × ℕ)) (w : World) :
    (l.foldl (fun a p => pairUpdate a p.1 p.2) w).n = w.n ∧
      (l.foldl (fun a p => pairUpdate a p.1 p.2) w).x = w.x ∧
      (l.foldl (fun a p => pairUpdate a p.1 p.2) w).y = w.y ∧
      (l.foldl (fun a p => pairUpdate a p.1 p.2) w).diam = w.diam := by
  induction l generalizing w with
  | nil => exact ⟨rfl, rfl, rfl, rfl⟩
  | cons p t ih =>
      have hp := pairUpdate_frame w p.1 p.2
      have ht := ih (pairUpdate w p.1 p.2)
      simp only [List.foldl_cons]
      exact ⟨ht.1.trans hp.1, ht.2.1.trans hp.2.1,
        ht.2.2.1.trans hp.2.2.1, ht.2.2.2.trans hp.2.2.2⟩

/-- `integrate` never touches the body count, velocities, or diameters. -/
theorem integrate_frame (w : World) :
    (integrate w).n = w.n ∧ (integrate w).vx = w.vx ∧
      (integrate w).vy = w.vy ∧ (integrate w).diam = w.diam :=
  ⟨rfl, rfl, rfl, rfl⟩

/-- `advance` never touches the body count or the diameters. -/
theorem advance_frame (w : World) :
    (advance w).n = w.n ∧ (advance w).diam = w.diam := by
  have hp := foldPairs_frame (pairList w.n) w
  exact ⟨hp.1, hp.2.2.2⟩

/-- Distance data of `wGrav`: the separation is `(100, 0)`, `r² = 10000`. -/
theorem wGrav_dist2 : dist2 wGrav 0 1 = 10000 := by
  norm_num [dist2, sepX, sepY, wGrav]

/-- Distance of `wGrav`: `r = 100`. -/
theorem wGrav_dist : dist wGrav 0 1 = 100 := by
  rw [dist, wGrav_dist2, show (10000 : ℝ) = 100 ^ 2 by norm_num]
  exact Real.sqrt_sq (by norm_num)

/-- In `wGrav` the two bodies are not colliding: `r = 100 > minSep = 10`. -/
theorem wGrav_far : ¬ dist wGrav 0 1 ≤ minSep wGrav 0 1 := by
  rw [wGrav_dist]
  norm_num [minSep, wGrav]

/-- Distance data of `wColl`: the separation is `(3, 4)`, `r² = 25`. -/
theorem wColl_dist2 : dist2 wColl 0 1 = 25 := by
  norm_num [dist2, sepX, sepY, wColl]

/-- Distance of `wColl`: `r = 5`. -/
theorem wColl_dist : dist wColl 0 1 = 5 := by
  rw [dist, wColl_dist2, show (25 : ℝ) = 5 ^ 2 by norm_num]
  exact Real.sqrt_sq (by norm_num)

/-- In `wColl` the two bodies overlap: `r = 5 ≤ minSep = 10`. -/
theorem wColl_near : dist wColl 0 1 ≤ minSep wColl 0 1 := by
  rw [wColl_dist]
  norm_num [minSep, wColl]

/-- In `wColl` both bodies are at rest, so the closing normal speed is 0. -/
theorem wColl_normalSpeed : normalSpeed wColl 0 1 = 0 := by
  simp [normalSpeed, scalarProject, dot, wColl]

/-- A recognized event overwrites the running `ret` value with its
command. -/
theorem pollStep_of_recognized (r : UserInput) (e : SDLEvent) (c : UserInput)
    (h : eventCommand e = some c) : pollStep r e = c := by
  cases e with
  | mouseButtonDown => simpa [eventCommand, pollStep] using h
  | keyUp k => cases k <;> simpa [eventCommand, pollStep] using h
  | otherEvent => simp [eventCommand] at h

/-- An unrecognized event leaves the running `ret` value unchanged. -/
theorem pollStep_of_unrecognized (r : UserInput) (e : SDLEvent)
    (h : eventCommand e = none) : pollStep r e = r := by
  cases e with
  | mouseButtonDown => simp [eventCommand] at h
  | keyUp k => cases k <;> simp_all [eventCommand, pollStep]
  | otherEvent => rfl

/-- Folding the event loop over unrecognized events keeps `ret`. -/
theorem foldl_pollStep_of_unrecognized (evts : List SDLEvent) (r : UserInput)
    (h : ∀ x ∈ evts, eventCommand x = none) :
    evts.foldl pollStep r = r := by
  induction evts generalizing r with
  | nil => rfl
  | cons e t ih =>
      rw [List.foldl_cons, pollStep_of_unrecognized r e (h e (by simp))]
      exact ih r fun x hx => h x (by simp [hx])

/-- Dispatching any command preserves `stepFrames ≥ -1`. -/
theorem seeIfUserWantsSomething_stepFrames_ge {α : Type} (s : SimState α)
    (u : UserInput) (h : -1 ≤ s.stepFrames) :
    -1 ≤ (seeIfUserWantsSomething s u).stepFrames := by
  cases u <;> simp only [seeIfUserWantsSomething] <;> try exact h
  · split
    · exact le_refl _
    · show (-1 : ℤ) ≤ 0
      norm_num
  · show -1 ≤ s.stepFrames + 1
    omega

/-- One tick preserves `stepFrames ≥ -1`. -/
theorem stepSim_stepFrames_ge {α : Type} (f : α → α) (s : SimState α)
    (u : UserInput) (h : -1 ≤ s.stepFrames) :
    -1 ≤ (stepSim f s u).stepFrames := by
  simp only [stepSim]
  apply seeIfUserWantsSomething_stepFrames_ge
  split
  · split <;> simp_all <;> omega
  · exact h

/-- C5: starting from Paused (`stepFrames = 0`), the command sequence
StepOnce, StepOnce puts the run mode in Stepping(2); over the next two
ticks (no further command) the physics advances exactly twice — the world
becomes `f (f w)` — and the mode returns to Paused (`stepFrames = 0`). -/
theorem stepOnce_twice_then_two_ticks {α : Type} (f : α → α) (s : SimState α)
    (h : s.stepFrames = 0) :
    (seeIfUserWantsSomething (seeIfUserWantsSomething s .step) .step).stepFrames
        = 2 ∧
      (stepSim f (stepSim f
          (seeIfUserWantsSomething (seeIfUserWantsSomething s .step) .step)
          .lovinit) .lovinit).stepFrames = 0 ∧
      (stepSim f (stepSim f
          (seeIfUserWantsSomething (seeIfUserWantsSomething s .step) .step)
          .lovinit) .lovinit).world = f (f s.world) := by
  simp [seeIfUserWantsSomething, stepSim, h]

/-- Witness for C5 at the concrete paused state `simState0` with the
successor function as the physics advance. -/
theorem stepOnce_twice_then_two_ticks_witness :
    simState0.stepFrames = 0 ∧
      ((seeIfUserWantsSomething (seeIfUserWantsSomething simState0 .step)
          .step).stepFrames = 2 ∧
        (stepSim Nat.succ (stepSim Nat.succ
            (seeIfUserWantsSomething (seeIfUserWantsSomething simState0 .step)
              .step) .lovinit) .lovinit).stepFrames = 0 ∧
        (stepSim Nat.succ (stepSim Nat.succ
            (seeIfUserWantsSomething (seeIfUserWantsSomething simState0 .step)
              .step) .lovinit) .lovinit).world
          = Nat.succ (Nat.succ simState0.world)) :=
  ⟨rfl, stepOnce_twice_then_two_ticks Nat.succ simState0 rfl⟩

/-- C6 counterexample: delivering StepOnce while Running (`stepFrames = -1`)
is not a no-op — the unconditional `++stepFrames` moves the counter to `0`,
which is Paused, not Running. -/
theorem stepOnce_while_running_counterexample :
    (seeIfUserWantsSomething
        ({ world := 0, stepFrames := -1, looping := true } : SimState ℕ)
        .step).stepFrames = 0 ∧
      ((0 : ℤ) ≠ -1) :=
  ⟨by decide, by decide⟩

/-- C6 amended: delivering StepOnce while Running increments `stepFrames`
from `-1` to `0`, i.e. the mode becomes Paused; the world and loop flag are
unchanged. -/
theorem stepOnce_while_running_pauses {α : Type} (s : SimState α)
    (h : s.stepFrames = -1) :
    (seeIfUserWantsSomething s .step).stepFrames = 0 ∧
      (seeIfUserWantsSomething s .step).world = s.world ∧
      (seeIfUserWantsSomething s .step).looping = s.looping := by
  simp [seeIfUserWantsSomething, h]

/-- Witness for the amended C6 at the concrete running state
`simStateRun`. -/
theorem stepOnce_while_running_pauses_witness :
    simStateRun.stepFrames = -1 ∧
      ((seeIfUserWantsSomething simStateRun .step).stepFrames = 0 ∧
        (seeIfUserWantsSomething simStateRun .step).world = simStateRun.world ∧
        (seeIfUserWantsSomething simStateRun .step).looping
          = simStateRun.looping) :=
  ⟨rfl, stepOnce_while_running_pauses simStateRun rfl⟩

/-- C7 counterexample: a poll draining a quit-triggering mouse press and
then a space-bar release returns TogglePause, not Quit — Quit does not take
precedence. -/
theorem quit_priority_counterexample :
    userInput [.mouseButtonDown, .keyUp .space] = .togglePause ∧
      UserInput.togglePause ≠ .quit :=
  ⟨rfl, by decide⟩

/-- C7 amended: one poll returns the command of the last recognized event
it drains: for any queue split as `evts1 ++ e :: evts2` where `e` is
recognized and every later event is not, the poll returns `e`'s command —
so an earlier quit-triggering event is simply overwritten. -/
theorem userInput_last_recognized_wins (evts1 : List SDLEvent) (e : SDLEvent)
    (c : UserInput) (evts2 : List SDLEvent) (hc : eventCommand e = some c)
    (h2 : ∀ x ∈ evts2, eventCommand x = none) :
    userInput (evts1 ++ e :: evts2) = c := by
  rw [userInput, List.foldl_append, List.foldl_cons,
    pollStep_of_recognized _ e c hc, foldl_pollStep_of_unrecognized evts2 c h2]

/-- Witness for the amended C7: a quit-triggering mouse press followed by a
recognized space release and an unrecognized key release yields
TogglePause. -/
theorem userInput_last_recognized_wins_witness :
    eventCommand (.keyUp .space) = some .togglePause ∧
      (∀ x ∈ [SDLEvent.keyUp .otherKey], eventCommand x = none) ∧
      userInput ([.mouseButtonDown] ++ .keyUp .space :: [.keyUp .otherKey])
        = .togglePause :=
  ⟨rfl, by decide,
    userInput_last_recognized_wins [.mouseButtonDown] (.keyUp .space)
      .togglePause [.keyUp .otherKey] rfl (by decide)⟩

/-- C10: the run-mode counter is well-formed: it starts at `-1`, every
command handler and every tick preserves `stepFrames ≥ -1`, StepOnce
increments the counter, ToggleRunPause sets it to `0` or `-1`, and a tick
with no command never decreases a non-positive counter (the decrement fires
only when `stepFrames > 0`). -/
theorem stepFrames_wellformed :
    (∀ (α : Type) (w : α), (initContext w).stepFrames = -1) ∧
      (∀ (α : Type) (s : SimState α) (u : UserInput), -1 ≤ s.stepFrames →
        -1 ≤ (seeIfUserWantsSomething s u).stepFrames) ∧
      (∀ (α : Type) (f : α → α) (s : SimState α) (u : UserInput),
        -1 ≤ s.stepFrames → -1 ≤ (stepSim f s u).stepFrames) ∧
      (∀ (α : Type) (s : SimState α),
        (seeIfUserWantsSomething s .step).stepFrames = s.stepFrames + 1) ∧
      (∀ (α : Type) (s : SimState α),
        (seeIfUserWantsSomething s .togglePause).stepFrames = 0 ∨
          (seeIfUserWantsSomething s .togglePause).stepFrames = -1) ∧
      (∀ (α : Type) (f : α → α) (s : SimState α), s.stepFrames ≤ 0 →
        (stepSim f s .lovinit).stepFrames = s.stepFrames) := by
  refine ⟨fun α w => rfl,
    fun α s u h => seeIfUserWantsSomething_stepFrames_ge s u h,
    fun α f s u h => stepSim_stepFrames_ge f s u h,
    fun α s => rfl, fun α s => ?_, fun α f s h => ?_⟩
  · simp only [seeIfUserWantsSomething]
    split
    · right; rfl
    · left; rfl
  · simp only [stepSim, seeIfUserWantsSomething]
    split
    · split <;> simp_all <;> omega
    · rfl

/-- Witness for C10: all six conjuncts instantiated at a concrete paused
state with the identity physics. -/
theorem stepFrames_wellformed_witness :
    (initContext (0 : ℕ)).stepFrames = -1 ∧
      (-1 ≤ simState0.stepFrames →
        -1 ≤ (seeIfUserWantsSomething simState0 .quit).stepFrames) ∧
      (-1 ≤ simState0.stepFrames →
        -1 ≤ (stepSim id simState0 .step).stepFrames) ∧
      (seeIfUserWantsSomething simState0 .step).stepFrames
        = simState0.stepFrames + 1 ∧
      ((seeIfUserWantsSomething simState0 .togglePause).stepFrames = 0 ∨
        (seeIfUserWantsSomething simState0 .togglePause).stepFrames = -1) ∧
      (simState0.stepFrames ≤ 0 →
        (stepSim id simState0 .lovinit).stepFrames = simState0.stepFrames) :=
  ⟨stepFrames_wellformed.1 ℕ 0,
    fun h => stepFrames_wellformed.2.1 ℕ simState0 .quit h,
    fun h => stepFrames_wellformed.2.2.1 ℕ id simState0 .step h,
    stepFrames_wellformed.2.2.2.1 ℕ simState0,
    stepFrames_wellformed.2.2.2.2.1 ℕ simState0,
    fun h => stepFrames_wellformed.2.2.2.2.2 ℕ id simState0 h⟩

/-- C1: in the physics step, collision handling and gravitational impulse
are mutually exclusive per pair: when `r ≤ minSep` the pair's velocities are
exactly the `doCollision` results and no gravitational term is added;
otherwise exactly the gravitational impulse is applied. -/
theorem collision_gravity_mutually_exclusive (w : World) (i j : ℕ)
    (hij : i ≠ j) :
    (dist w i j ≤ minSep w i j →
      ((pairUpdate w i j).vx i, (pairUpdate w i j).vy i,
        (pairUpdate w i j).vx j, (pairUpdate w i j).vy j)
        = doCollision (sepX w i j) (sepY w i j) (dist w i j)
            (w.vx i) (w.vy i) (w.vx j) (w.vy j)) ∧
      (¬ dist w i j ≤ minSep w i j →
        (pairUpdate w i j).vx i
            = w.vx i + gravForce w i j / dist w i j * sepX w i j / bodyMass w i ∧
          (pairUpdate w i j).vy i
            = w.vy i + gravForce w i j / dist w i j * sepY w i j / bodyMass w i ∧
          (pairUpdate w i j).vx j
            = w.vx j - gravForce w i j / dist w i j * sepX w i j / bodyMass w j ∧
          (pairUpdate w i j).vy j
            = w.vy j - gravForce w i j / dist w i j * sepY w i j / bodyMass w j) :=
  ⟨fun h => pairUpdate_of_near w i j hij h,
    fun h => pairUpdate_of_far w i j hij h⟩

/-- Witness for C1 at the overlapping pair of `wColl`: the collision branch
fires and the velocities are exactly the `doCollision` results. -/
theorem collision_gravity_mutually_exclusive_witness :
    (0 : ℕ) ≠ 1 ∧ dist wColl 0 1 ≤ minSep wColl 0 1 ∧
      ((pairUpdate wColl 0 1).vx 0, (pairUpdate wColl 0 1).vy 0,
        (pairUpdate wColl 0 1).vx 1, (pairUpdate wColl 0 1).vy 1)
        = doCollision (sepX wColl 0 1) (sepY wColl 0 1) (dist wColl 0 1)
            (wColl.vx 0) (wColl.vy 0) (wColl.vx 1) (wColl.vy 1) :=
  ⟨by decide, wColl_near,
    (collision_gravity_mutually_exclusive wColl 0 1 (by decide)).1 wColl_near⟩

/-- C4: for an overlapping pair whose closing normal speed is `≤ 0`,
collision resolution changes nothing: that pair's contribution to the
physics step is a complete no-op. -/
theorem collision_separating_noop (w : World) (i j : ℕ) (hij : i ≠ j)
    (hcol : dist w i j ≤ minSep w i j) (hsep : normalSpeed w i j ≤ 0) :
    pairUpdate w i j = w := by
  have hd : doCollision (sepX w i j) (sepY w i j) (dist w i j)
      (w.vx i) (w.vy i) (w.vx j) (w.vy j)
      = (w.vx i, w.vy i, w.vx j, w.vy j) :=
    doCollision_of_separating _ _ _ _ _ _ _ hsep
  simp only [pairUpdate]
  rw [if_pos hcol, hd]
  simp [Function.update_eq_self]

/-- Witness for C4 at the overlapping, mutually-at-rest pair of `wColl`. -/
theorem collision_separating_noop_witness :
    (0 : ℕ) ≠ 1 ∧ dist wColl 0 1 ≤ minSep wColl 0 1 ∧
      normalSpeed wColl 0 1 ≤ 0 ∧ pairUpdate wColl 0 1 = wColl :=
  ⟨by decide, wColl_near, le_of_eq wColl_normalSpeed,
    collision_separating_noop wColl 0 1 (by decide) wColl_near
      (le_of_eq wColl_normalSpeed)⟩

/-- C3: for a non-colliding pair the gravitational velocity changes satisfy
`m_i · Δv_i = -(m_j · Δv_j)` componentwise — equal and opposite impulses. -/
theorem grav_impulse_equal_opposite (w : World) (i j : ℕ) (hij : i ≠ j)
    (hfar : ¬ dist w i j ≤ minSep w i j)
    (hdi : w.diam i ≠ 0) (hdj : w.diam j ≠ 0) :
    bodyMass w i * ((pairUpdate w i j).vx i - w.vx i)
        = -(bodyMass w j * ((pairUpdate w i j).vx j - w.vx j)) ∧
      bodyMass w i * ((pairUpdate w i j).vy i - w.vy i)
        = -(bodyMass w j * ((pairUpdate w i j).vy j - w.vy j)) := by
  obtain ⟨h1, h2, h3, h4⟩ := pairUpdate_of_far w i j hij hfar
  have hmi : bodyMass w i ≠ 0 := mul_ne_zero hdi hdi
  have hmj : bodyMass w j ≠ 0 := mul_ne_zero hdj hdj
  have cancelAdd : ∀ m v q : ℝ, m ≠ 0 → m * (v + q / m - v) = q := by
    intro m v q hm
    field_simp
    ring
  have cancelSub : ∀ m v q : ℝ, m ≠ 0 → m * (v - q / m - v) = -q := by
    intro m v q hm
    field_simp
    ring
  constructor
  · rw [h1, h3, cancelAdd _ _ _ hmi, cancelSub _ _ _ hmj, neg_neg]
  · rw [h2, h4, cancelAdd _ _ _ hmi, cancelSub _ _ _ hmj, neg_neg]

/-- Witness for C3 at the non-colliding pair of `wGrav`. -/
theorem grav_impulse_equal_opposite_witness :
    (0 : ℕ) ≠ 1 ∧ ¬ dist wGrav 0 1 ≤ minSep wGrav 0 1 ∧
      wGrav.diam 0 ≠ 0 ∧ wGrav.diam 1 ≠ 0 ∧
      (bodyMass wGrav 0 * ((pairUpdate wGrav 0 1).vx 0 - wGrav.vx 0)
          = -(bodyMass wGrav 1 * ((pairUpdate wGrav 0 1).vx 1 - wGrav.vx 1)) ∧
        bodyMass wGrav 0 * ((pairUpdate wGrav 0 1).vy 0 - wGrav.vy 0)
          = -(bodyMass wGrav 1 * ((pairUpdate wGrav 0 1).vy 1 - wGrav.vy 1))) :=
  ⟨by decide, wGrav_far, by norm_num [wGrav], by norm_num [wGrav],
    grav_impulse_equal_opposite wGrav 0 1 (by decide) wGrav_far
      (by norm_num [wGrav]) (by norm_num [wGrav])⟩

/-- C2: one physics step on the two-body world
`[body0: pos(0,0) v(0,0) diam 10, body1: pos(100,0) v(0,0) diam 10]` with
`G = 1` gives gravitational force `1`, velocities `(0.01, 0)` and
`(-0.01, 0)`, and positions `(0.01, 0)` and `(99.99, 0)`: pass 2 integrates
each position with the already-updated velocity from pass 1. -/
theorem two_body_scenario :
    gravForce wGrav 0 1 = 1 ∧
      (advance wGrav).vx 0 = 1 / 100 ∧ (advance wGrav).vy 0 = 0 ∧
      (advance wGrav).vx 1 = -(1 / 100) ∧ (advance wGrav).vy 1 = 0 ∧
      (advance wGrav).x 0 = 1 / 100 ∧ (advance wGrav).y 0 = 0 ∧
      (advance wGrav).x 1 = 9999 / 100 ∧ (advance wGrav).y 1 = 0 := by
  obtain ⟨h1, h2, h3, h4⟩ := pairUpdate_of_far wGrav 0 1 (by decide) wGrav_far
  have hforce : gravForce wGrav 0 1 = 1 := by
    rw [gravForce, wGrav_dist2]
    norm_num [bodyMass, G, wGrav]
  have hsx : sepX wGrav 0 1 = 100 := by norm_num [sepX, wGrav]
  have hsy : sepY wGrav 0 1 = 0 := by norm_num [sepY, wGrav]
  have hm0 : bodyMass wGrav 0 = 100 := by norm_num [bodyMass, wGrav]
  have hm1 : bodyMass wGrav 1 = 100 := by norm_num [bodyMass, wGrav]
  have hvx0 : (pairUpdate wGrav 0 1).vx 0 = 1 / 100 := by
    rw [h1, hforce, wGrav_dist, hsx, hm0]
    norm_num [wGrav]
  have hvy0 : (pairUpdate wGrav 0 1).vy 0 = 0 := by
    rw [h2, hforce, wGrav_dist, hsy, hm0]
    norm_num [wGrav]
  have hvx1 : (pairUpdate wGrav 0 1).vx 1 = -(1 / 100) := by
    rw [h3, hforce, wGrav_dist, hsx, hm1]
    norm_num [wGrav]
  have hvy1 : (pairUpdate wGrav 0 1).vy 1 = 0 := by
    rw [h4, hforce, wGrav_dist, hsy, hm1]
    norm_num [wGrav]
  have hadv : advance wGrav = integrate (pairUpdate wGrav 0 1) := rfl
  obtain ⟨hn, hx, hy, _⟩ := pairUpdate_frame wGrav 0 1
  have hix : ∀ i : ℕ, i < 2 →
      (integrate (pairUpdate wGrav 0 1)).x i
        = (pairUpdate wGrav 0 1).x i + (pairUpdate wGrav 0 1).vx i := by
    intro i hi
    have hi2 : i < (pairUpdate wGrav 0 1).n := by rw [hn]; exact hi
    simp only [integrate]
    rw [if_pos hi2]
  have hiy : ∀ i : ℕ, i < 2 →
      (integrate (pairUpdate wGrav 0 1)).y i
        = (pairUpdate wGrav 0 1).y i + (pairUpdate wGrav 0 1).vy i := by
    intro i hi
    have hi2 : i < (pairUpdate wGrav 0 1).n := by rw [hn]; exact hi
    simp only [integrate]
    rw [if_pos hi2]
  refine ⟨hforce, ?_, ?_, ?_, ?_, ?_, ?_, ?_, ?_⟩
  · rw [hadv]; exact hvx0
  · rw [hadv]; exact hvy0
  · rw [hadv]; exact hvx1
  · rw [hadv]; exact hvy1
  · rw [hadv, hix 0 (by norm_num), hx, hvx0]
    norm_num [wGrav]
  · rw [hadv, hiy 0 (by norm_num), hy, hvy0]
    norm_num [wGrav]
  · rw [hadv, hix 1 (by norm_num), hx, hvx1]
    norm_num [wGrav]
  · rw [hadv, hiy 1 (by norm_num), hy, hvy1]
    norm_num [wGrav]

/-- C9: the physics step mutates only velocities and positions: after any
number of `advance` calls the body count and every diameter are unchanged. -/
theorem advance_only_moves_bodies (w : World) (k : ℕ) :
    (advance^[k] w).n = w.n ∧ (advance^[k] w).diam = w.diam := by
  induction k with
  | zero => exact ⟨rfl, rfl⟩
  | succ k ih =>
      rw [Function.iterate_succ_apply']
      have h := advance_frame (advance^[k] w)
      exact ⟨h.1.trans ih.1, h.2.trans ih.2⟩

/-- C8: when no two bodies coincide (`r² ≠ 0` for every pair `i < j < n`)
and every diameter is positive, none of the divisors of the physics step
(`r²` in the force, `r` in the force resolution and the projections inside
`doCollision`, and the masses `m_i`, `m_j`) is zero — at the initial state
and at every intermediate state of the pairwise pass (the fold over any list
of pairs), since pass 1 never moves a body or changes a diameter. -/
theorem advance_no_division_by_zero (w : World)
    (hdiam : ∀ i, i < w.n → 0 < w.diam i)
    (hsep : ∀ i j, i < j → j < w.n → dist2 w i j ≠ 0) :
    ∀ (l : List (ℕ × ℕ)) (i j : ℕ), i < j → j < w.n →
      dist2 (l.foldl (fun a p => pairUpdate a p.1 p.2) w) i j ≠ 0 ∧
        dist (l.foldl (fun a p => pairUpdate a p.1 p.2) w) i j ≠ 0 ∧
        bodyMass (l.foldl (fun a p => pairUpdate a p.1 p.2) w) i ≠ 0 ∧
        bodyMass (l.foldl (fun a p => pairUpdate a p.1 p.2) w) j ≠ 0 := by
  intro l i j hij hj
  have hi : i < w.n := lt_trans hij hj
  obtain ⟨hn, hx, hy, hd⟩ := foldPairs_frame l w
  have hd2 : dist2 (l.foldl (fun a p => pairUpdate a p.1 p.2) w) i j
      = dist2 w i j := by
    simp only [dist2, sepX, sepY]
    rw [hx, hy]
  have hmass : ∀ m : ℕ,
      bodyMass (l.foldl (fun a p => pairUpdate a p.1 p.2) w) m
        = bodyMass w m := by
    intro m
    simp only [bodyMass]
    rw [hd]
  have h2 : dist2 w i j ≠ 0 := hsep i j hij hj
  have hnn : (0 : ℝ) ≤ dist2 w i j :=
    add_nonneg (mul_self_nonneg _) (mul_self_nonneg _)
  have h2pos : 0 < dist2 w i j := by
    rcases lt_or_eq_of_le hnn with h | h
    · exact h
    · exact absurd h.symm h2
  refine ⟨hd2.symm ▸ h2, ?_, ?_, ?_⟩
  · rw [dist, hd2]
    exact ne_of_gt (Real.sqrt_pos.mpr h2pos)
  · rw [hmass i]
    exact mul_ne_zero (ne_of_gt (hdiam i hi)) (ne_of_gt (hdiam i hi))
  · rw [hmass j]
    exact mul_ne_zero (ne_of_gt (hdiam j hj)) (ne_of_gt (hdiam j hj))

/-- Witness for C8 at `wGrav`: both preconditions hold and the divisors of
the (empty-prefix) state are nonzero for the pair `(0, 1)`. -/
theorem advance_no_division_by_zero_witness :
    (∀ i, i < wGrav.n → 0 < wGrav.diam i) ∧
      (∀ i j, i < j → j < wGrav.n → dist2 wGrav i j ≠ 0) ∧
      (dist2 (([] : List (ℕ × ℕ)).foldl
            (fun a p => pairUpdate a p.1 p.2) wGrav) 0 1 ≠ 0 ∧
        dist (([] : List (ℕ × ℕ)).foldl
            (fun a p => pairUpdate a p.1 p.2) wGrav) 0 1 ≠ 0 ∧
        bodyMass (([] : List (ℕ × ℕ)).foldl
            (fun a p => pairUpdate a p.1 p.2) wGrav) 0 ≠ 0 ∧
        bodyMass (([] : List (ℕ × ℕ)).foldl
            (fun a p => pairUpdate a p.1 p.2) wGrav) 1 ≠ 0) := by
  have hdiam : ∀ i, i < wGrav.n → 0 < wGrav.diam i := by
    intro i hi
    norm_num [wGrav]
  have hsep : ∀ i j, i < j → j < wGrav.n → dist2 wGrav i j ≠ 0 := by
    intro i j hij hj
    have hj2 : j < 2 := hj
    interval_cases j
    · omega
    · interval_cases i
      rw [wGrav_dist2]
      norm_num
  exact ⟨hdiam, hsep,
    advance_no_division_by_zero wGrav hdiam hsep [] 0 1 (by norm_num)
      (by norm_num [wGrav])⟩

end NBody
